import Mathlib

/-!
Verification of the transaction-monitoring core of the keylo-solana-wallet
repository (src/src/models/Transaction.ts and the price utilities in
src/src/utils/priceUtils.ts), as a shallow embedding in Lean 4.

Conventions of the embedding:
* JavaScript numbers are modelled as exact rationals (ℚ); lamport balances are
  integers.  Optional / possibly-falsy fields are modelled with `Option`,
  where `none` stands for an absent or empty (falsy) value.
* try/catch blocks around pure computations are irrelevant (the embedded
  computations are total); where a catch produces a documented fallback value
  the fallback is modelled explicitly.
* External collaborators (database lookups, the Coinvera price API, the SOL
  price cache, token metadata) are passed in as explicit parameters, holding
  the values the corresponding asynchronous calls resolve to.
-/

namespace KeyloWallet

/-- Mint address of native SOL (`SOL_MINT` in src/src/utils/transfer.ts). -/
def SOL_MINT : String := "So11111111111111111111111111111111111111112"

/-- The system program id used as burn destination / close source. -/
def SYSTEM_PROGRAM : String := "11111111111111111111111111111111"

/-- Solana logo URL constant used for native-coin records. -/
def solanaLogoUrl : String :=
  "https://raw.githubusercontent.com/solana-labs/token-list/main/assets/mainnet/So11111111111111111111111111111111111111112/logo.png"

/-- Fallback logo served when metadata resolution fails. -/
def fallbackLogoUrl : String := "https://www.coinvera.io/logo.png"

/-- One entry of the provider's `getSignaturesForAddress` response:
`{signature, slot, err?}`.  `err` is the truthiness of the error field. -/
structure SigEntry where
  signature : String
  slot : Nat
  err : Bool
deriving DecidableEq, Repr

/-- A pre/post token balance entry of the transaction meta
(`meta.preTokenBalances` / `meta.postTokenBalances`).  `uiAmount` is
`parseFloat(uiTokenAmount.uiAmountString || '0')`, `rawAmount` is
`parseFloat(uiTokenAmount.amount)`. -/
structure TokenBalance where
  mint : String
  owner : String
  uiAmount : ℚ
  rawAmount : ℚ
  decimals : Nat
deriving DecidableEq, Repr

/-- The `info` object of a parsed instruction (jsonParsed encoding).  `none`
models an absent or empty (falsy) field.  The raw `amount` field is a numeric
string; the string "0" is truthy in JavaScript, so it is modelled `some 0`. -/
structure InstrInfo where
  account : Option String
  amount : Option Nat
  mint : Option String
  destination : Option String
  source : Option String
deriving DecidableEq, Repr

/-- The `parsed` object of an instruction: `{type, info}`. -/
structure ParsedInstr where
  type : Option String
  info : Option InstrInfo
deriving DecidableEq, Repr

/-- A (top-level or inner) instruction as the detector sees it. -/
structure TxInstruction where
  programId : Option String
  parsed : Option ParsedInstr
deriving DecidableEq, Repr

/-- A group of inner instructions (`meta.innerInstructions[i]`). -/
structure InnerGroup where
  instructions : List TxInstruction
deriving DecidableEq, Repr

/-- The message of the resolved transaction (`transaction.message`).  Account
keys are the extracted address strings (`key` or `key.pubkey`); an empty
string models a falsy key. -/
structure TxMessage where
  accountKeys : List String
  instructions : List TxInstruction
deriving DecidableEq, Repr

/-- The transaction meta object.  Absent balance lists behave exactly like
empty ones in every consumer (empty arrays are truthy in JavaScript and all
loops over them are no-ops), so plain lists are used.  `metaTxAccountKeys`
models `meta.transaction?.message?.accountKeys`: the RPC `meta` object carries
no `transaction` field, so the pipeline always has `none` here; the field is
kept because `parseSolBalanceChanges` branches on it. -/
structure TxMeta where
  err : Bool
  preBalances : List Int
  postBalances : List Int
  preTokenBalances : List TokenBalance
  postTokenBalances : List TokenBalance
  innerInstructions : List InnerGroup
  metaTxAccountKeys : Option (List String)
deriving DecidableEq, Repr

/-- A resolved transaction as returned by the batched `getTransaction` call
(jsonParsed): `{slot, blockTime, transaction: {message}, meta}`. -/
structure ParsedTx where
  slot : Nat
  blockTime : Option Int
  message : TxMessage
  meta : TxMeta
deriving DecidableEq, Repr

/-! ### DEX detection (`detectDEX`, src/src/models/Transaction.ts 679-751) -/

/-- The static DEX program table (`DEX_PROGRAMS`), in declaration order. -/
def DEX_PROGRAMS : List (String × List String) := [
  ("Pump.fun", [
    "6EF8rrecthR5Dkzon8Nwu78hRvfCKubJ14M5uBEwF6P",
    "pAMMBay6oceH9fJKBRHGP5D4bD4sWpmSwMn52FMfXEA",
    "CE5QSoHhzGGUE8MAfgkWWdDKzKwMDZjCFfvyMDEiKWdj",
    "pumpkn6GrJ5X1KTiRhPWToxrv7wbgx6x7QrePfqzgKA"]),
  ("Raydium", [
    "675kPX9MHTjS2zt1qfr1NYHuzeLXfQM9H24wFSUt1Mp8",
    "EhYXQPv92L6EUrDBkLyMtq5e1yvfbGzT3H7qUaLDqhd8",
    "CPMMoo8L3F4NbTegBCKVNunggL7H1ZpdTHKxQB5qKP1C",
    "27haf8L6oxUeXrHrgEgsexjSY5hbVUWEmvv9Nyxg8vQv",
    "9W959DqEETiGZocYWCQPaJ6sBmUzgfxXfqGeTEdp3aQP"]),
  ("Jupiter", [
    "JUP4Fb2cqiRUcaTHdrPC8h2gNsA2ETXiPDD33WcGuJB",
    "JUP6LkbZbjS1jKKwapdHNy74zcZ3tLUZoi5QNyVTaV4",
    "j1o2qRpjcyUwEvwtcfhEQefh773ZgjxcVRry7LDqg5X",
    "JupiterV6LkbZbjS1jKKwapdHNy74zcZ3tLUZoi5QNyVTaV4"]),
  ("Serum", [
    "9xQeWvG816bUx9EPjHmaT23yvVM2ZWbrrpZb9PusVFin",
    "BJ3jrUzddfuSrZHXSCxMbUuqUUaG23jxjE6tLy6QeL2k",
    "EUqojwWA2rd19FZrzeBncJsm38Jm1hEhE3zsmX3bRc2o"]),
  ("Orca", [
    "DjVE6JNiYqPL2QXyCUUh8rNjHrbz9hXHNYt99MQ59qw1",
    "9W959DqEETiGZocYWCQPaJ6sBmUzgfxXfqGeTEdp3aQP",
    "82yxjeMsvaURa4MbZZ7WZZHfobirZYkH1zF8fmeGtyaQ"]),
  ("Meteora", [
    "Eo7WjKq67rjJQSZxS6z3YkapzY3eMj6Xy8X5EQVn5UaB",
    "LBUZKhRxPF3XUpBCjp4YzTKgLccjZhTSDM9YuVaPwxo"]),
  ("Phoenix", [
    "PhoeNiXZ8ByJGLkxNfZRnkUfjvmuYqLR89jjFHGqdXY"]),
  ("Lifinity", [
    "EewxydAPCCVuNEyrVN68PuSYdQ7wKn27V9Gjeoi8dy3S"])]

/-- The fixed priority ordering used to pick one venue among several matches. -/
def dexPriority : List String :=
  ["Jupiter", "Raydium", "Orca", "Serum", "Meteora", "Phoenix", "Lifinity", "Pump.fun"]

/-- Insertion-order de-duplication, modelling addition to a JavaScript `Set`. -/
def insertUniq (l : List String) (a : String) : List String :=
  if a ∈ l then l else l ++ [a]

/-- All candidate program ids of a transaction, in the order `detectDEX`
collects them: top-level instruction program ids, inner-instruction program
ids, then the account-key list (skipping falsy keys). -/
def collectProgramIds (tx : ParsedTx) : List String :=
  let fromTop := tx.message.instructions.filterMap (fun i => i.programId)
  let fromInner :=
    (tx.meta.innerInstructions.map
      (fun g => g.instructions.filterMap (fun i => i.programId))).flatten
  let fromKeys := tx.message.accountKeys.filter (fun a => a ≠ "")
  (fromTop ++ fromInner ++ fromKeys).foldl insertUniq []

/-- The `detectedDEXes` list: each collected program id contributes every
table entry whose program list contains it, in table order. -/
def matchedDEXes (tx : ParsedTx) : List String :=
  (collectProgramIds tx).flatMap (fun pid =>
    DEX_PROGRAMS.filterMap (fun entry => if pid ∈ entry.2 then some entry.1 else none))

/-- `detectDEX`: return the highest-priority detected venue, the first
detected one if none is in the priority list, and "Unknown" when nothing
matched. -/
def detectDEX (tx : ParsedTx) : String :=
  match matchedDEXes tx with
  | [] => "Unknown"
  | d0 :: _ => ((dexPriority.find? (fun p => (matchedDEXes tx).contains p)).getD d0)

/-- Primary program id of a venue: `(DEX_PROGRAMS as any)[dex]?.[0] || 'Unknown'`. -/
def dexPrimaryProgram (dex : String) : String :=
  match DEX_PROGRAMS.find? (fun e => e.1 == dex) with
  | some e => e.2.headD "Unknown"
  | none => "Unknown"

/-- The aggregator's (Jupiter's) program ids in the static table. -/
def jupiterProgramIds : List String :=
  ((DEX_PROGRAMS.find? (fun e => e.1 == "Jupiter")).map (fun e => e.2)).getD []

/-! ### Price and metadata resolution (getTokenPriceUSD / getSolPriceUSD /
extractUsdPrice; src/src/models/Transaction.ts 935-971,
src/src/utils/priceUtils.ts 168-179) -/

/-- A Coinvera price response.  `error` is the truthiness of the error field;
`priceInUsd` is `none` when the field is absent or empty, `some none` when it
is present but not numeric (parseFloat yields NaN), `some (some q)` when it
parses to `q`. -/
structure CoinveraResp where
  error : Bool
  priceInUsd : Option (Option ℚ)

/-- A token metadata response (name/symbol/logo may each be falsy). -/
structure TokenMetaResp where
  name : Option String
  symbol : Option String
  logo : Option String

/-- The SOL price cache entry returned by `getCachedSolPrice`. -/
structure SolPriceCache where
  solPriceUsd : ℚ

/-- The external collaborators of the classifier, holding the values its
asynchronous calls resolve to.  `tokenResp mint = none` models a rejected
price fetch (caught, yielding price 0); `metaResp mint = none` models a
failed metadata lookup (caught, yielding the fallback metadata). -/
structure PriceEnv where
  apiKey : Option String
  tokenResp : String → Option CoinveraResp
  solCache : Option SolPriceCache
  metaResp : String → Option TokenMetaResp

/-- `extractUsdPrice` (priceUtils.ts): 0 on an error response, on an absent or
non-numeric `priceInUsd`, otherwise the parsed price. -/
def extractUsdPrice (r : CoinveraResp) : ℚ :=
  if r.error then 0
  else
    match r.priceInUsd with
    | some (some q) => q
    | some none => 0
    | none => 0

/-- `getTokenPriceUSD`: 0 with no API key, 0 when the fetch fails, otherwise
the extracted price. -/
def getTokenPriceUSD (env : PriceEnv) (mint : String) : ℚ :=
  match env.apiKey with
  | none => 0
  | some _ =>
    match env.tokenResp mint with
    | none => 0
    | some r => extractUsdPrice r

/-- `getSolPriceUSD`: the cached SOL price when present and positive,
otherwise the fixed fallback price 100. -/
def getSolPriceUSD (env : PriceEnv) : ℚ :=
  match env.solCache with
  | some c => if 0 < c.solPriceUsd then c.solPriceUsd else 100
  | none => 100

/-- Resolved token metadata after fallbacks. -/
structure TokenMeta where
  name : String
  symbol : String
  logo : String
deriving DecidableEq, Repr

/-- Fixed metadata returned for the native coin. -/
def solanaMeta : TokenMeta :=
  ⟨"Solana", "SOL", solanaLogoUrl⟩

/-- `getTokenMetadata` (Transaction.ts 903-929): fixed data for SOL, the
resolved metadata with per-field fallbacks otherwise, and full fallback
values when the lookup throws. -/
def getTokenMetadata (env : PriceEnv) (mint : String) : TokenMeta :=
  if mint == SOL_MINT then solanaMeta
  else
    match env.metaResp mint with
    | none => ⟨"Unknown", "UNKNOWN", fallbackLogoUrl⟩
    | some m => ⟨m.name.getD "Unknown", m.symbol.getD "UNKNOWN", m.logo.getD fallbackLogoUrl⟩

/-! ### Balance-diff extraction (parseTokenBalanceChanges 756-833,
parseSolBalanceChanges 838-898) -/

/-- One token balance change of the monitored wallet. -/
structure TokenChange where
  mint : String
  amount : ℚ
  decimals : Nat
deriving DecidableEq, Repr

/-- `parseTokenBalanceChanges`: changes for every mint the wallet holds after
the transaction (post minus pre, absent pre treated as 0), then `-pre` for
mints held before but not after; zero changes are dropped.  Decimals come
from the side the entry was taken from. -/
def parseTokenBalanceChanges (meta : TxMeta) (walletAddress : String) : List TokenChange :=
  let preBalances := meta.preTokenBalances
  let postBalances := meta.postTokenBalances
  let userPostTokens := postBalances.filter (fun b => b.owner == walletAddress)
  let postChanges := userPostTokens.filterMap (fun postToken =>
    let preToken := preBalances.find? (fun b =>
      b.mint == postToken.mint && b.owner == walletAddress)
    let preAmount := (preToken.map (fun t => t.uiAmount)).getD 0
    let change := postToken.uiAmount - preAmount
    if change = 0 then none else some ⟨postToken.mint, change, postToken.decimals⟩)
  let preChanges := (preBalances.filter (fun b => b.owner == walletAddress)).filterMap
    (fun preToken =>
      if userPostTokens.any (fun post => post.mint == preToken.mint) then none
      else
        let change := -preToken.uiAmount
        if change = 0 then none else some ⟨preToken.mint, change, preToken.decimals⟩)
  postChanges ++ preChanges

/-- The decimals the burn path resolves for a mint: those recorded by the
wallet's token balance change for it, 0 when there is none
(`relevantChange?.decimals || 0` in `detectBurnAndCloseOperations`; the code
reads decimals from nowhere else). -/
def walletDecimalsFor (meta : TxMeta) (walletAddress mint : String) : ℕ :=
  (((parseTokenBalanceChanges meta walletAddress).find?
      (fun c => c.mint == mint)).map (fun c => c.decimals)).getD 0

/-- The wallet-lookup loop of Method 1 of `parseSolBalanceChanges`: walk the
account keys; at the first index holding the wallet address with both balance
lists long enough, return `(post - pre) / 1e9`.  Falls through (`none`) when
the loop finishes without returning. -/
def solMethod1Go (walletAddress : String) (pre post : List Int) :
    Nat → List String → Option ℚ
  | _, [] => none
  | i, k :: rest =>
    if k == walletAddress && decide (i < pre.length) && decide (i < post.length) then
      some (((post.getD i 0 - pre.getD i 0 : Int) : ℚ) / 1000000000)
    else solMethod1Go walletAddress pre post (i + 1) rest

/-- Method 2 of `parseSolBalanceChanges`: scan balance positions up to the
shorter list and return the first change exceeding 0.000001 SOL in absolute
value ("this might be our wallet"), else 0. -/
def solMethod2 : List Int → List Int → ℚ
  | p :: ps, q :: qs =>
    let change : ℚ := ((q - p : Int) : ℚ) / 1000000000
    if 1 / 1000000 < |change| then change else solMethod2 ps qs
  | _, _ => 0

/-- `parseSolBalanceChanges`: Method 1 runs only when the passed meta object
has `transaction.message.accountKeys` (never the case for an RPC meta);
otherwise, or when Method 1 finds nothing, Method 2 runs. -/
def parseSolBalanceChanges (meta : TxMeta) (walletAddress : String) : ℚ :=
  match meta.metaTxAccountKeys with
  | some accountKeys =>
    match solMethod1Go walletAddress meta.preBalances meta.postBalances 0 accountKeys with
    | some v => v
    | none => solMethod2 meta.preBalances meta.postBalances
  | none => solMethod2 meta.preBalances meta.postBalances

/-- `getTransactionSigner` (976-992): the first account key, "Unknown" when
there is none. -/
def getTransactionSigner (tx : ParsedTx) : String :=
  match tx.message.accountKeys with
  | [] => "Unknown"
  | k :: _ => k

/-! ### Transfer counterparty resolution (extractTransferAddresses 997-1105) -/

/-- Lamport balance change at position `i` (`post[i] - pre[i]`, missing
entries as 0). -/
def balChangeAt (pre post : List Int) (i : Nat) : Int :=
  post.getD i 0 - pre.getD i 0

/-- The SOL section of `extractTransferAddresses`: requires at least two
account keys; finds the wallet's first index within the common range of keys
and balances; on a positive change looks for a sender losing more than the
gain, falling back to the first key; on a negative change looks for any
gainer, falling back to the second key; a zero change breaks out (`none`). -/
def transferAddrSol (accountKeys : List String) (pre post : List Int)
    (userWalletAddress : String) : Option (String × String) :=
  if 2 ≤ accountKeys.length then
    let n := min accountKeys.length (min pre.length post.length)
    match (List.range n).find? (fun i => accountKeys.getD i "" == userWalletAddress) with
    | some i =>
      let delta := balChangeAt pre post i
      if 0 < delta then
        match (List.range n).find? (fun j =>
            !(j == i) && decide (balChangeAt pre post j < 0)
              && decide (delta.natAbs < (balChangeAt pre post j).natAbs)) with
        | some j => some (accountKeys.getD j "", userWalletAddress)
        | none => some (accountKeys.getD 0 "", userWalletAddress)
      else if delta < 0 then
        match (List.range n).find? (fun j =>
            !(j == i) && decide (0 < balChangeAt pre post j)) with
        | some j => some (userWalletAddress, accountKeys.getD j "")
        | none => some (userWalletAddress, accountKeys.getD 1 "")
      else none
    | none => none
  else none

/-- The token section of `extractTransferAddresses`: wallet appears only in
post balances ⇒ look for a funded sender of the same mint; wallet appears in
pre balances and its raw amount did not stay or grow ⇒ look for a funded
receiver of the same mint. -/
def transferAddrToken (preTokenBalances postTokenBalances : List TokenBalance)
    (userWalletAddress : String) : Option (String × String) :=
  let userPreToken := preTokenBalances.find? (fun b => b.owner == userWalletAddress)
  let userPostToken := postTokenBalances.find? (fun b => b.owner == userWalletAddress)
  match userPreToken, userPostToken with
  | none, some postT =>
    (preTokenBalances.find? (fun b =>
        b.mint == postT.mint && !(b.owner == userWalletAddress)
          && decide (0 < b.rawAmount))).map
      (fun s => (s.owner, userWalletAddress))
  | some preT, none =>
    (postTokenBalances.find? (fun b =>
        b.mint == preT.mint && !(b.owner == userWalletAddress)
          && decide (0 < b.rawAmount))).map
      (fun r => (userWalletAddress, r.owner))
  | some preT, some postT =>
    if postT.rawAmount < preT.rawAmount then
      (postTokenBalances.find? (fun b =>
          b.mint == preT.mint && !(b.owner == userWalletAddress)
            && decide (0 < b.rawAmount))).map
        (fun r => (userWalletAddress, r.owner))
    else none
  | none, none => none

/-- `extractTransferAddresses`: SOL section, then token section, then the
structural fallback (first key → second key or "Unknown"); with no account
keys the fallback throws in the source and the catch yields
`(wallet, "Unknown")`. -/
def extractTransferAddresses (tx : ParsedTx) (userWalletAddress : String) :
    String × String :=
  let meta := tx.meta
  let accountKeys := tx.message.accountKeys
  match transferAddrSol accountKeys meta.preBalances meta.postBalances userWalletAddress with
  | some r => r
  | none =>
    match transferAddrToken meta.preTokenBalances meta.postTokenBalances userWalletAddress with
    | some r => r
    | none =>
      match accountKeys with
      | [] => (userWalletAddress, "Unknown")
      | k0 :: _ =>
        (k0, if 2 ≤ accountKeys.length then accountKeys.getD 1 "" else "Unknown")

/-! ### The event classifier (parseToFilteredTransactions 472-674,
detectBurnAndCloseOperations 1514-1632) -/

/-- Event types of the persisted ledger. -/
inductive TxType
  | send
  | receive
  | swap
  | burn
  | close
deriving DecidableEq, Repr

/-- A classified event (`FilteredTransactionData`).  The `status` field is the
constant 'confirmed' in the source and is omitted.  `createdAtMs` is the
epoch-millisecond value handed to `new Date`. -/
structure FilteredTx where
  signature : String
  slot : Nat
  type : TxType
  dex : String
  mint : String
  amount : ℚ
  value : ℚ
  name : String
  symbol : String
  logo : String
  fromAddr : String
  toAddr : String
  createdAtMs : ℚ
  userId : String
deriving DecidableEq, Repr

/-- `new Date((blockTime || Date.now() / 1000) * 1000)`: `now` models
`Date.now() / 1000`; a missing or zero (falsy) blockTime falls back to it. -/
def createdAtMs (blockTime : Option Int) (now : ℚ) : ℚ :=
  (match blockTime with
   | some t => if t = 0 then now else (t : ℚ)
   | none => now) * 1000

/-- Extract `(mint, amount)` of a parsed burn instruction when its type is
"burn" and `account`, `mint` and `amount` are all truthy. -/
def burnData (ix : TxInstruction) : Option (String × Nat) :=
  match ix.parsed with
  | none => none
  | some p =>
    if p.type == some "burn" then
      match p.info with
      | none => none
      | some info =>
        match info.account, info.mint, info.amount with
        | some _, some m, some a => some (m, a)
        | _, _, _ => none
    else none

/-- Whether a parsed instruction is a `closeAccount` with a truthy `account`
whose destination is the monitored wallet. -/
def closeMatches (walletAddress : String) (ix : TxInstruction) : Bool :=
  match ix.parsed with
  | none => false
  | some p =>
    p.type == some "closeAccount" &&
      (match p.info with
       | none => false
       | some info => info.account.isSome && info.destination == some walletAddress)

/-- The burn event pushed by `detectBurnAndCloseOperations`: decimals are read
from the wallet's token balance change for the burned mint (0 when absent),
the amount is the negated absolute human amount, the destination the system
program. -/
def mkBurnEvent (env : PriceEnv) (meta : TxMeta)
    (signature userId walletAddress : String) (blockTime : Option Int)
    (slot : Nat) (now : ℚ) (mint : String) (rawAmount : Nat) : FilteredTx :=
  let metadata := getTokenMetadata env mint
  let price := getTokenPriceUSD env mint
  let tokenChanges := parseTokenBalanceChanges meta walletAddress
  let decimals := ((tokenChanges.find? (fun c => c.mint == mint)).map
    (fun c => c.decimals)).getD 0
  let humanAmount : ℚ := (rawAmount : ℚ) / 10 ^ decimals
  { signature := signature, slot := slot, type := TxType.burn,
    dex := "Token Program", mint := mint,
    amount := -|humanAmount|, value := |humanAmount| * price,
    name := metadata.name, symbol := metadata.symbol, logo := metadata.logo,
    fromAddr := walletAddress, toAddr := SYSTEM_PROGRAM,
    createdAtMs := createdAtMs blockTime now, userId := userId }

/-- The close event pushed by `detectBurnAndCloseOperations`: the recovered
rent is the absolute SOL change, the closed mint is taken from the wallet's
first token balance change ("Unknown" when there is none). -/
def mkCloseEvent (env : PriceEnv) (meta : TxMeta)
    (signature userId walletAddress : String) (blockTime : Option Int)
    (slot : Nat) (now : ℚ) : FilteredTx :=
  let solChange := parseSolBalanceChanges meta walletAddress
  let rentAmount := |solChange|
  let tokenChanges := parseTokenBalanceChanges meta walletAddress
  let closedMint := match tokenChanges with
    | [] => "Unknown"
    | c :: _ => c.mint
  let metadata := match tokenChanges with
    | [] => (⟨"Unknown Token", "UNKNOWN", fallbackLogoUrl⟩ : TokenMeta)
    | c :: _ => getTokenMetadata env c.mint
  { signature := signature, slot := slot, type := TxType.close,
    dex := "Token Program", mint := closedMint,
    amount := rentAmount, value := rentAmount * getSolPriceUSD env,
    name := metadata.name ++ " Account Close", symbol := "SOL",
    logo := solanaLogoUrl,
    fromAddr := SYSTEM_PROGRAM, toAddr := walletAddress,
    createdAtMs := createdAtMs blockTime now, userId := userId }

/-- All instructions scanned by `detectBurnAndCloseOperations`: top-level
ones, then the flattened inner groups. -/
def allInstructions (tx : ParsedTx) : List TxInstruction :=
  tx.message.instructions ++ (tx.meta.innerInstructions.map
    (fun g => g.instructions)).flatten

/-- Events one instruction contributes: a burn event when it is a complete
parsed burn, a close event when it is a close of a wallet-destined account
(the two types are mutually exclusive in the source's two `if` blocks). -/
def instrEvents (env : PriceEnv) (meta : TxMeta)
    (signature userId walletAddress : String) (blockTime : Option Int)
    (slot : Nat) (now : ℚ) (ix : TxInstruction) : List FilteredTx :=
  (match burnData ix with
   | some (m, a) =>
     [mkBurnEvent env meta signature userId walletAddress blockTime slot now m a]
   | none => []) ++
  (if closeMatches walletAddress ix then
    [mkCloseEvent env meta signature userId walletAddress blockTime slot now]
  else [])

/-- `detectBurnAndCloseOperations`: scan all instructions and collect their
burn/close events in order. -/
def detectBurnAndCloseOperations (env : PriceEnv) (tx : ParsedTx)
    (signature userId walletAddress : String) (blockTime : Option Int)
    (slot : Nat) (now : ℚ) : List FilteredTx :=
  (allInstructions tx).flatMap
    (instrEvents env tx.meta signature userId walletAddress blockTime slot now)

/-- An entry of the swap path's `allBalanceChanges` list. -/
structure SwapCandidate where
  mint : String
  amount : ℚ
  decimals : Nat
  isSOL : Bool
deriving DecidableEq, Repr

/-- The swap path's candidate list: all token changes, then the SOL change
when it is nonzero and above the 0.0000001 spam threshold. -/
def swapCandidates (meta : TxMeta) (walletAddress : String) : List SwapCandidate :=
  let tokenChanges := parseTokenBalanceChanges meta walletAddress
  let solChange := parseSolBalanceChanges meta walletAddress
  (tokenChanges.map (fun c => (⟨c.mint, c.amount, c.decimals, false⟩ : SwapCandidate))) ++
  (if solChange ≠ 0 ∧ 1 / 10000000 < |solChange| then
    [(⟨SOL_MINT, solChange, 9, true⟩ : SwapCandidate)]
  else [])

/-- `parseToFilteredTransactions`: the classifier.  Failed transactions and a
missing user yield no events; with no balance change at all the guard returns
early; burn/close events short-circuit; a known venue yields at most one swap
event for the first spent (negative) asset; otherwise the transfer path emits
one event per token change (or one SOL event when there are no token
changes), typed by signer identity. -/
def parseToFilteredTransactions (env : PriceEnv) (tx : ParsedTx)
    (signature userId : String) (userWallet : Option String) (now : ℚ) :
    List FilteredTx :=
  if tx.meta.err then []
  else
    match userWallet with
    | none => []
    | some walletAddress =>
      let dex := detectDEX tx
      let tokenChanges := parseTokenBalanceChanges tx.meta walletAddress
      let solChange := parseSolBalanceChanges tx.meta walletAddress
      if tokenChanges = [] ∧ solChange = 0 then []
      else
        let burnCloseResult := detectBurnAndCloseOperations env tx signature
          userId walletAddress tx.blockTime tx.slot now
        if burnCloseResult ≠ [] then burnCloseResult
        else if dex ≠ "Unknown" then
          match (swapCandidates tx.meta walletAddress).find?
              (fun c => decide (c.amount < 0)) with
          | some spentAsset =>
            let metadata := if spentAsset.isSOL then solanaMeta
              else getTokenMetadata env spentAsset.mint
            let price := if spentAsset.isSOL then getSolPriceUSD env
              else getTokenPriceUSD env spentAsset.mint
            let finalAmount := -|spentAsset.amount|
            [{ signature := signature, slot := tx.slot, type := TxType.swap,
               dex := dex, mint := spentAsset.mint,
               amount := finalAmount, value := |finalAmount| * price,
               name := metadata.name, symbol := metadata.symbol,
               logo := metadata.logo,
               fromAddr := walletAddress, toAddr := dexPrimaryProgram dex,
               createdAtMs := createdAtMs tx.blockTime now, userId := userId }]
          | none => []
        else
          let addrs := extractTransferAddresses tx walletAddress
          let signer := getTransactionSigner tx
          let ttype : TxType := if signer == walletAddress then TxType.send
            else TxType.receive
          if tokenChanges ≠ [] then
            tokenChanges.map (fun change =>
              let amount := if ttype = TxType.receive then |change.amount|
                else -|change.amount|
              let metadata := getTokenMetadata env change.mint
              let price := getTokenPriceUSD env change.mint
              { signature := signature, slot := tx.slot, type := ttype,
                dex := "Unknown", mint := change.mint,
                amount := amount, value := |amount| * price,
                name := metadata.name, symbol := metadata.symbol,
                logo := metadata.logo,
                fromAddr := addrs.1, toAddr := addrs.2,
                createdAtMs := createdAtMs tx.blockTime now, userId := userId })
          else if solChange ≠ 0 ∧ 1 / 10000000 < |solChange| then
            let amount := if ttype = TxType.receive then |solChange| else -|solChange|
            [{ signature := signature, slot := tx.slot, type := ttype,
               dex := "Unknown", mint := SOL_MINT,
               amount := amount, value := |amount| * getSolPriceUSD env,
               name := "Solana", symbol := "SOL", logo := solanaLogoUrl,
               fromAddr := addrs.1, toAddr := addrs.2,
               createdAtMs := createdAtMs tx.blockTime now, userId := userId }]
          else []

/-! ### Monitoring loop and persistence (processUserTransactions 333-385,
batchProcessTransactions 390-467, updateLastSignature 1265-1272,
saveFilteredTransaction 1218-1225 with the unique signature index 31-37) -/

/-- The in-memory cursor entry of a monitored user (`UserLastSignature`; the
wall-clock `lastSyncTime` is omitted). -/
structure UserLastSignature where
  userId : String
  walletAddress : String
  lastSignature : String
deriving DecidableEq, Repr

/-- `updateLastSignature`: overwrite the user's cursor entry. -/
def updateLastSignature (userId walletAddress signature : String) :
    UserLastSignature :=
  ⟨userId, walletAddress, signature⟩

/-- The signature filter of `processUserTransactions` (353-363): drop entries
whose `err` is set or whose signature already exists in the database. -/
def filterValidSignatures (dbHas : String → Bool) (sigs : List SigEntry) :
    List SigEntry :=
  sigs.filter (fun s => !s.err && !dbHas s.signature)

/-- Chronological (oldest-first) sort by slot applied before processing. -/
def sortBySlotAsc (sigs : List SigEntry) : List SigEntry :=
  sigs.mergeSort (fun a b => decide (a.slot ≤ b.slot))

/-- The cursor-relevant step of `processUserTransactions` for one monitoring
tick.  `page` is the provider's response to
`getSignaturesForAddress(wallet, {limit: 5, before: cursor?.lastSignature})`
(newest first).  An empty page leaves the cursor unchanged; otherwise the
cursor is set to the page's first (newest) signature, whether or not any
entry survives the validity filter.  The second component is the
slot-sorted list of entries handed to `batchProcessTransactions`. -/
def processUserTransactionsStep (dbHas : String → Bool)
    (cursor : Option UserLastSignature) (userId walletAddress : String)
    (page : List SigEntry) : Option UserLastSignature × List SigEntry :=
  match page with
  | [] => (cursor, [])
  | top :: _ =>
    let validSignatures := filterValidSignatures dbHas page
    if validSignatures = [] then
      (some (updateLastSignature userId walletAddress top.signature), [])
    else
      (some (updateLastSignature userId walletAddress top.signature),
        sortBySlotAsc validSignatures)

/-- Provider semantics of the `before` option of `getSignaturesForAddress`
(spec §4.1/§6: pages walk backward through history from the `before`
pointer): every returned entry lies at a strictly older slot than the
signature passed as `before`.  `slotOf` is the chain's slot assignment. -/
def BeforePage (slotOf : String → Nat) (beforeSig : String)
    (page : List SigEntry) : Prop :=
  ∀ e ∈ page, e.slot < slotOf beforeSig

/-- `saveFilteredTransaction` against the ledger's unique signature index: a
duplicate insert fails (the error is caught), leaving the store unchanged;
otherwise the event is appended. -/
def saveFilteredTransaction (store : List FilteredTx) (e : FilteredTx) :
    List FilteredTx :=
  if store.any (fun x => x.signature == e.signature) then store
  else store ++ [e]

/-- The per-signature slice of `batchProcessTransactions` (427-457): skip the
signature when an event with it already exists, otherwise classify and save
every produced event. -/
def processSignatureOnce (env : PriceEnv) (tx : ParsedTx)
    (signature userId : String) (userWallet : Option String) (now : ℚ)
    (store : List FilteredTx) : List FilteredTx :=
  if store.any (fun x => x.signature == signature) then store
  else
    (parseToFilteredTransactions env tx signature userId userWallet now).foldl
      saveFilteredTransaction store

/-- Modelled from the spec (§4.3): the native-coin delta locates the wallet's
index among the transaction's account keys and is
`postBalances[idx] - preBalances[idx]` in whole coin units, 0 when the wallet
is absent.  Used only to compare against `parseSolBalanceChanges`. -/
def specNativeDelta (tx : ParsedTx) (walletAddress : String) : ℚ :=
  match (List.range tx.message.accountKeys.length).find?
      (fun i => tx.message.accountKeys.getD i "" == walletAddress) with
  | some i =>
    ((tx.meta.postBalances.getD i 0 - tx.meta.preBalances.getD i 0 : Int) : ℚ)
      / 1000000000
  | none => 0

/-! ### Concrete fixtures used to instantiate the theorems below -/

/-- A collaborator environment in which every lookup is unavailable: no API
key, failing price fetches, an empty SOL price cache, failing metadata. -/
def envNone : PriceEnv := ⟨none, fun _ => none, none, fun _ => none⟩

/-- A failed transaction (`meta.err` set). -/
def c1ErrTx : ParsedTx := ⟨5, none, ⟨[], []⟩, ⟨true, [], [], [], [], [], none⟩⟩

/-- An error-free signature entry. -/
def c1OkSig : SigEntry := ⟨"SIGOK", 1, false⟩

/-- Slot assignment of the two-signature chain used for the cursor claim:
SIGA sits at slot 100, everything else at slot 50. -/
def c2SlotOf : String → Nat := fun s => if s == "SIGA" then 100 else 50

/-- The provider page returned for `before := "SIGA"`: one strictly older
signature. -/
def c2Page : List SigEntry := [⟨"SIGB", 50, false⟩]

/-- The cursor pointing at SIGA before the tick. -/
def c2Cursor : UserLastSignature := ⟨"u", "w", "SIGA"⟩

/-- A transaction whose fee payer (index 0) loses 1 SOL while the monitored
wallet WALLETX (index 1) has a zero native delta. -/
def c3Tx : ParsedTx :=
  ⟨77, some 1700000000, ⟨["FEEPAYER", "WALLETX"], []⟩,
   ⟨false, [5000000000, 2000000000], [4000000000, 2000000000], [], [], [], none⟩⟩

/-- A transaction touching both a Jupiter program and a Raydium pool program
in its top-level instructions. -/
def c4Tx : ParsedTx :=
  ⟨11, none,
   ⟨["W"],
    [⟨some "JUP6LkbZbjS1jKKwapdHNy74zcZ3tLUZoi5QNyVTaV4", none⟩,
     ⟨some "675kPX9MHTjS2zt1qfr1NYHuzeLXfQM9H24wFSUt1Mp8", none⟩]⟩,
   ⟨false, [], [], [], [], [], none⟩⟩

/-- A successful transaction carrying two parsed burn instructions — one for
MINTZ with raw amount 0 (the string "0" is truthy), one for MINTD with raw
amount 5, whose mint decimals 2 the transaction records only on another
owner's token balance entry — plus a 1 SOL balance change that lets it pass
the no-balance-change guard.  The monitored wallet WALLETW has no token
balance change of its own. -/
def c5TwoBurnTx : ParsedTx :=
  ⟨66, some 1700000000,
   ⟨["WALLETW", "OTHER"],
    [⟨some "TokenkegQfeZyiNwAJbNbGKPFXCWuBvf9Ss623VQ5DA",
      some ⟨some "burn", some ⟨some "ACCTZ", some 0, some "MINTZ", none, none⟩⟩⟩,
     ⟨some "TokenkegQfeZyiNwAJbNbGKPFXCWuBvf9Ss623VQ5DA",
      some ⟨some "burn", some ⟨some "ACCTD", some 5, some "MINTD", none, none⟩⟩⟩]⟩,
   ⟨false, [2000000000], [1000000000], [],
    [⟨"MINTD", "OTHER", 7, 700, 2⟩], [], none⟩⟩

/-- A successful transaction in which WALLETW burns 5 raw units of MINTM
(decimals 2): its token account goes from 0.05 to fully emptied. -/
def c5BurnTx : ParsedTx :=
  ⟨44, none,
   ⟨["WALLETW"],
    [⟨some "TokenkegQfeZyiNwAJbNbGKPFXCWuBvf9Ss623VQ5DA",
      some ⟨some "burn", some ⟨some "TOKACCT", some 5, some "MINTM", none, none⟩⟩⟩]⟩,
   ⟨false, [], [], [⟨"MINTM", "WALLETW", 1 / 20, 5, 2⟩], [], [], none⟩⟩

/-- A Jupiter swap in which wallet W spends 2 units of MINTA. -/
def c6Tx : ParsedTx :=
  ⟨22, none,
   ⟨["W"], [⟨some "JUP6LkbZbjS1jKKwapdHNy74zcZ3tLUZoi5QNyVTaV4", none⟩]⟩,
   ⟨false, [], [],
    [⟨"MINTA", "W", 5, 5000, 3⟩], [⟨"MINTA", "W", 3, 3000, 3⟩], [], none⟩⟩

/-- A pure SOL transfer: wallet W (the signer, index 0) sends 1 SOL to RECV. -/
def c8SolTx : ParsedTx :=
  ⟨99, some 1700000000, ⟨["W", "RECV"], []⟩,
   ⟨false, [2000000000, 0], [1000000000, 1000000000], [], [], [], none⟩⟩

/-- The single event the classifier produces for `c8SolTx` under `envNone`:
a send of 1 SOL from W to RECV, valued with the 100 USD fallback price. -/
def solSendEvent : FilteredTx :=
  ⟨"SIG8", 99, TxType.send, "Unknown", SOL_MINT, -1, 100, "Solana", "SOL",
   solanaLogoUrl, "W", "RECV", 1700000000000, "U8"⟩

/-- A successful transaction containing a complete parsed burn instruction
but no balance change at all for any account. -/
def c10Tx : ParsedTx :=
  ⟨33, none,
   ⟨["W", "X"],
    [⟨some "TokenkegQfeZyiNwAJbNbGKPFXCWuBvf9Ss623VQ5DA",
      some ⟨some "burn", some ⟨some "TOKACCT", some 5, some "MINTM", none, none⟩⟩⟩]⟩,
   ⟨false, [1000000000, 7], [1000000000, 7], [], [], [], none⟩⟩

/-! ### Theorems -/

/-- C1: a signature entry with the ledger-reported error flag set produces
zero Events: the monitoring tick discards it before transaction resolution
(it never passes the validity filter), and a resolved transaction whose
`meta.err` is set yields an empty event list. -/
theorem c1_err_signatures_produce_no_events :
    (∀ (dbHas : String → Bool) (sigs : List SigEntry) (s : SigEntry),
      s ∈ filterValidSignatures dbHas sigs → s.err = false)
    ∧ (∀ (env : PriceEnv) (tx : ParsedTx) (sig uid : String)
        (uw : Option String) (now : ℚ), tx.meta.err = true →
        parseToFilteredTransactions env tx sig uid uw now = []) := by
  constructor
  · intro dbHas sigs s hs
    have := List.mem_filter.mp hs
    have hb := this.2
    simp only [Bool.and_eq_true, Bool.not_eq_true'] at hb
    exact hb.1
  · intro env tx sig uid uw now herr
    simp [parseToFilteredTransactions, herr]

/-- C1 witness: a concrete error-free entry survives the filter with
`err = false`, and a concrete failed transaction classifies to no events. -/
theorem c1_witness :
    c1OkSig.err = false
    ∧ parseToFilteredTransactions envNone c1ErrTx "S" "U" (some "W") 0 = [] :=
  ⟨c1_err_signatures_produce_no_events.1 (fun _ => false) [c1OkSig] c1OkSig
      (by decide),
   c1_err_signatures_produce_no_events.2 envNone c1ErrTx "S" "U" (some "W") 0
      rfl⟩

/-- C2 (refuting evaluation): the monitoring tick queries the provider with
`before := lastSignature`, whose pages contain only strictly older
signatures, and then moves the cursor to the head of that page — so on the
concrete tick below the cursor regresses from SIGA (slot 100) to SIGB
(slot 50) even though the page satisfies the provider's `before`
semantics. -/
theorem c2_cursor_regresses_on_monitoring_tick :
    BeforePage c2SlotOf c2Cursor.lastSignature c2Page
    ∧ (processUserTransactionsStep (fun _ => false) (some c2Cursor) "u" "w"
        c2Page).1 = some ⟨"u", "w", "SIGB"⟩
    ∧ c2SlotOf "SIGB" < c2SlotOf c2Cursor.lastSignature := by
  refine ⟨?_, by decide, by decide⟩
  intro e he
  simp only [c2Page, List.mem_singleton] at he
  subst he
  decide

/-- C3 (refuting evaluation): on the concrete transaction `c3Tx` the wallet
WALLETX sits at index 1 of the account keys with a zero native delta, yet
`parseSolBalanceChanges` returns -1 SOL (the fee payer's change at index 0):
the RPC meta object carries no `transaction.message.accountKeys`, so the
wallet-index method never runs and the fallback returns the first
significant change of any account. -/
theorem c3_native_delta_ignores_wallet_index :
    parseSolBalanceChanges c3Tx.meta "WALLETX" = -1
    ∧ specNativeDelta c3Tx "WALLETX" = 0
    ∧ ((-1 : ℚ) ≠ 0) := by
  refine ⟨?_, ?_, by norm_num⟩
  · norm_num [parseSolBalanceChanges, solMethod2, c3Tx]
  · have h : ("FEEPAYER" == "WALLETX") = false := by decide
    norm_num [specNativeDelta, c3Tx, List.range_succ, List.find?, h]

/-- Helper: every detected venue name is a key of the static table. -/
theorem matchedDEXes_subset_table {tx : ParsedTx} {n : String}
    (h : n ∈ matchedDEXes tx) : n ∈ DEX_PROGRAMS.map Prod.fst := by
  simp only [matchedDEXes, List.mem_flatMap, List.mem_filterMap] at h
  obtain ⟨pid, -, entry, hentry, hif⟩ := h
  by_cases hp : pid ∈ entry.2
  · rw [if_pos hp] at hif
    cases hif
    exact List.mem_map.mpr ⟨entry, hentry, rfl⟩
  · rw [if_neg hp] at hif
    cases hif

/-- C4: venue detection collects candidates from instructions, inner
instructions and account keys; with no table match the result is "Unknown";
with at least one match the fixed priority list selects exactly one matched
venue and never "Unknown"; and any transaction touching a Jupiter program —
whatever pool programs it also touches — classifies as "Jupiter". -/
theorem c4_venue_priority_selection :
    (∀ tx : ParsedTx, matchedDEXes tx = [] → detectDEX tx = "Unknown")
    ∧ (∀ tx : ParsedTx, matchedDEXes tx ≠ [] →
        detectDEX tx ∈ matchedDEXes tx ∧ detectDEX tx ≠ "Unknown")
    ∧ (∀ (tx : ParsedTx) (p : String), p ∈ collectProgramIds tx →
        p ∈ jupiterProgramIds → detectDEX tx = "Jupiter") := by
  refine ⟨?_, ?_, ?_⟩
  · intro tx h
    simp [detectDEX, h]
  · intro tx h
    have hsub : ∀ m ∈ matchedDEXes tx, m ∈ DEX_PROGRAMS.map Prod.fst :=
      fun m hm => matchedDEXes_subset_table hm
    have hne : detectDEX tx ∈ matchedDEXes tx := by
      cases hm : matchedDEXes tx with
      | nil => exact absurd hm h
      | cons d0 rest =>
        simp only [detectDEX, hm]
        cases hf : List.find? (fun p => (d0 :: rest).contains p) dexPriority with
        | none => simp [List.mem_cons]
        | some p =>
          have := List.find?_some hf
          simp only [Option.getD_some]
          exact List.mem_of_elem_eq_true this
    refine ⟨hne, ?_⟩
    intro habs
    have : ("Unknown" : String) ∈ DEX_PROGRAMS.map Prod.fst := hsub _ (habs ▸ hne)
    revert this
    decide
  · intro tx p hp hj
    have hids : p ∈ (["JUP4Fb2cqiRUcaTHdrPC8h2gNsA2ETXiPDD33WcGuJB",
        "JUP6LkbZbjS1jKKwapdHNy74zcZ3tLUZoi5QNyVTaV4",
        "j1o2qRpjcyUwEvwtcfhEQefh773ZgjxcVRry7LDqg5X",
        "JupiterV6LkbZbjS1jKKwapdHNy74zcZ3tLUZoi5QNyVTaV4"] : List String) := by
      have : jupiterProgramIds = ["JUP4Fb2cqiRUcaTHdrPC8h2gNsA2ETXiPDD33WcGuJB",
        "JUP6LkbZbjS1jKKwapdHNy74zcZ3tLUZoi5QNyVTaV4",
        "j1o2qRpjcyUwEvwtcfhEQefh773ZgjxcVRry7LDqg5X",
        "JupiterV6LkbZbjS1jKKwapdHNy74zcZ3tLUZoi5QNyVTaV4"] := by decide
      exact this ▸ hj
    have hJmem : ("Jupiter" : String) ∈ matchedDEXes tx := by
      simp only [matchedDEXes, List.mem_flatMap]
      refine ⟨p, hp, ?_⟩
      simp only [List.mem_filterMap]
      refine ⟨("Jupiter", ["JUP4Fb2cqiRUcaTHdrPC8h2gNsA2ETXiPDD33WcGuJB",
        "JUP6LkbZbjS1jKKwapdHNy74zcZ3tLUZoi5QNyVTaV4",
        "j1o2qRpjcyUwEvwtcfhEQefh773ZgjxcVRry7LDqg5X",
        "JupiterV6LkbZbjS1jKKwapdHNy74zcZ3tLUZoi5QNyVTaV4"]), by decide, ?_⟩
      simp [hids]
    cases hm : matchedDEXes tx with
    | nil => rw [hm] at hJmem; cases hJmem
    | cons d0 rest =>
      rw [hm] at hJmem
      have hcont : (d0 :: rest).contains "Jupiter" = true :=
        List.elem_eq_true_of_mem hJmem
      simp only [detectDEX, hm]
      have hfind : List.find? (fun p => (d0 :: rest).contains p) dexPriority
          = some "Jupiter" := by
        have : dexPriority = "Jupiter" :: ["Raydium", "Orca", "Serum",
          "Meteora", "Phoenix", "Lifinity", "Pump.fun"] := rfl
        rw [this, List.find?_cons_of_pos _ hcont]
      rw [hfind, Option.getD_some]

/-- C4 witness: the concrete transaction touching both a Jupiter program and
a Raydium pool program classifies as Jupiter. -/
theorem c4_witness : detectDEX c4Tx = "Jupiter" :=
  c4_venue_priority_selection.2.2 c4Tx
    "JUP6LkbZbjS1jKKwapdHNy74zcZ3tLUZoi5QNyVTaV4" (by decide) (by decide)

/-- C10 (implicit claim): with no token balance change and a zero extracted
native change, the classifier returns before burn/close detection runs, so
no Event at all is produced, whatever instructions the transaction holds. -/
theorem c10_guard_precedes_burn_close (env : PriceEnv) (tx : ParsedTx)
    (sig uid wallet : String) (now : ℚ)
    (herr : tx.meta.err = false)
    (htok : parseTokenBalanceChanges tx.meta wallet = [])
    (hsol : parseSolBalanceChanges tx.meta wallet = 0) :
    parseToFilteredTransactions env tx sig uid (some wallet) now = [] := by
  simp [parseToFilteredTransactions, herr, htok, hsol]

/-- C10 witness: a concrete transaction carrying a complete parsed burn
instruction but no balance movement yields no events. -/
theorem c10_witness :
    parseToFilteredTransactions envNone c10Tx "SIGX" "U" (some "W") 0 = []
    ∧ (allInstructions c10Tx).any (fun ix => (burnData ix).isSome) = true :=
  ⟨c10_guard_precedes_burn_close envNone c10Tx "SIGX" "U" "W" 0 rfl
      (by decide)
      (by norm_num [parseSolBalanceChanges, solMethod2, c10Tx]),
   by decide⟩

/-- Helper: a complete parsed burn instruction is never a close match (its
parsed type is "burn", not "closeAccount"). -/
theorem closeMatches_eq_false_of_burnData {ix : TxInstruction} {m : String}
    {a : ℕ} {w : String} (h : burnData ix = some (m, a)) :
    closeMatches w ix = false := by
  cases hp : ix.parsed with
  | none => simp [burnData, hp] at h
  | some p =>
    simp only [burnData, hp] at h
    by_cases ht : p.type = some "burn"
    · simp [closeMatches, hp, ht]
    · simp [ht] at h

/-- Helper: the burn-typed events of the burn/close detector's output are
exactly one event per complete parsed burn instruction, in order (close
events carry type close and are filtered out; an instruction is never both a
burn and a close). -/
theorem filter_burn_flatMap (env : PriceEnv) (meta : TxMeta)
    (sig uid w : String) (bt : Option Int) (slot : Nat) (now : ℚ)
    (l : List TxInstruction) :
    (l.flatMap (instrEvents env meta sig uid w bt slot now)).filter
        (fun e => e.type == TxType.burn)
      = (l.filterMap burnData).map
          (fun ma => mkBurnEvent env meta sig uid w bt slot now ma.1 ma.2) := by
  induction l with
  | nil => rfl
  | cons a t ih =>
    rw [List.flatMap_cons, List.filter_append, ih, List.filterMap_cons]
    cases hbd : burnData a with
    | none =>
      simp only [instrEvents, hbd, List.nil_append]
      by_cases hcm : closeMatches w a = true
      · rw [if_pos hcm]
        have hcl : ((mkCloseEvent env meta sig uid w bt slot now).type
            == TxType.burn) = false := rfl
        simp [List.filter_cons, hcl]
      · rw [if_neg hcm]
        simp
    | some ma =>
      obtain ⟨m, x⟩ := ma
      have hcm : closeMatches w a = false := closeMatches_eq_false_of_burnData hbd
      simp only [instrEvents, hbd, hcm, Bool.false_eq_true, if_false,
        List.append_nil]
      have hbt : ((mkBurnEvent env meta sig uid w bt slot now m x).type
          == TxType.burn) = true := rfl
      simp [List.filter_cons, hbt]

/-- Helper: when the burn/close detector produces no events, the transaction
holds no complete parsed burn instruction. -/
theorem filterMap_burnData_nil_of_flatMap_nil (env : PriceEnv) (meta : TxMeta)
    (sig uid w : String) (bt : Option Int) (slot : Nat) (now : ℚ)
    (l : List TxInstruction) :
    l.flatMap (instrEvents env meta sig uid w bt slot now) = [] →
    l.filterMap burnData = [] := by
  induction l with
  | nil => intro h; rfl
  | cons a t ih =>
    intro h
    rw [List.flatMap_cons, List.append_eq_nil] at h
    rw [List.filterMap_cons]
    cases hbd : burnData a with
    | none => exact ih h.2
    | some ma =>
      exfalso
      have h1 := h.1
      simp [instrEvents, hbd] at h1

/-- C5 (amended): on a successful transaction with some extracted balance
change for the wallet (the guard of C10; with none, zero Events are
produced), the classifier emits one burn-typed Event per complete parsed
burn instruction and no other burn-typed Events: the Event for a burn of
mint `M` with raw amount `A` has assetId `M` and amount `-A / 10 ^ D`, where
`D` is the decimals recorded by the wallet's token balance change for `M` (0
when there is none — the code reads decimals from nowhere else); every such
amount is nonpositive, and strictly negative whenever `A > 0`. -/
theorem c5_burn_events_per_instruction (env : PriceEnv) (tx : ParsedTx)
    (sig uid wallet : String) (now : ℚ)
    (herr : tx.meta.err = false)
    (hguard : ¬(parseTokenBalanceChanges tx.meta wallet = []
        ∧ parseSolBalanceChanges tx.meta wallet = 0)) :
    ((parseToFilteredTransactions env tx sig uid (some wallet) now).filter
        (fun e => e.type == TxType.burn)).map (fun e => (e.mint, e.amount))
      = ((allInstructions tx).filterMap burnData).map
          (fun ma =>
            (ma.1, -((ma.2 : ℚ) / 10 ^ walletDecimalsFor tx.meta wallet ma.1)))
    ∧ (∀ e ∈ (parseToFilteredTransactions env tx sig uid (some wallet)
          now).filter (fun e => e.type == TxType.burn), e.amount ≤ 0)
    ∧ (∀ ma ∈ (allInstructions tx).filterMap burnData, 0 < ma.2 →
        -((ma.2 : ℚ) / 10 ^ walletDecimalsFor tx.meta wallet ma.1) < 0) := by
  have hmain : ((parseToFilteredTransactions env tx sig uid (some wallet)
        now).filter (fun e => e.type == TxType.burn)).map
          (fun e => (e.mint, e.amount))
      = ((allInstructions tx).filterMap burnData).map
          (fun ma =>
            (ma.1, -((ma.2 : ℚ) / 10 ^ walletDecimalsFor tx.meta wallet ma.1))) := by
    by_cases hbc : detectBurnAndCloseOperations env tx sig uid wallet
        tx.blockTime tx.slot now ≠ []
    · have hout : parseToFilteredTransactions env tx sig uid (some wallet) now
          = (allInstructions tx).flatMap
              (instrEvents env tx.meta sig uid wallet tx.blockTime tx.slot now) := by
        rw [parseToFilteredTransactions]
        simp only [herr, Bool.false_eq_true, if_false]
        rw [if_neg hguard, if_pos hbc, detectBurnAndCloseOperations]
      rw [hout, filter_burn_flatMap, List.map_map]
      congr 1
      funext ma
      obtain ⟨m, x⟩ := ma
      have hamount : (mkBurnEvent env tx.meta sig uid wallet tx.blockTime
          tx.slot now m x).amount
          = -|(x : ℚ) / 10 ^ walletDecimalsFor tx.meta wallet m| := rfl
      simp only [Function.comp_apply, hamount, Prod.mk.injEq]
      refine ⟨rfl, ?_⟩
      rw [abs_of_nonneg (by positivity : (0 : ℚ) ≤ (x : ℚ) / 10 ^ walletDecimalsFor tx.meta wallet m)]
    · have hbceq : detectBurnAndCloseOperations env tx sig uid wallet
          tx.blockTime tx.slot now = [] := not_not.mp hbc
      have hfmd : (allInstructions tx).filterMap burnData = [] := by
        apply filterMap_burnData_nil_of_flatMap_nil env tx.meta sig uid wallet
          tx.blockTime tx.slot now
        rw [← detectBurnAndCloseOperations]
        exact hbceq
      rw [hfmd, List.map_nil]
      have hnil : (parseToFilteredTransactions env tx sig uid (some wallet)
          now).filter (fun e => e.type == TxType.burn) = [] := by
        apply List.filter_eq_nil_iff.mpr
        intro e he
        rw [parseToFilteredTransactions] at he
        simp only [herr, Bool.false_eq_true, if_false] at he
        rw [if_neg hguard, if_neg hbc] at he
        have hsend : (TxType.send == TxType.burn) = false := rfl
        have hrecv : (TxType.receive == TxType.burn) = false := rfl
        by_cases hdex : detectDEX tx ≠ "Unknown"
        · rw [if_pos hdex] at he
          cases hfind : (swapCandidates tx.meta wallet).find?
              (fun c => decide (c.amount < 0)) with
          | none => rw [hfind] at he; cases he
          | some spent =>
            rw [hfind] at he
            rcases List.mem_singleton.mp he with rfl
            simp
        · rw [if_neg hdex] at he
          by_cases htok : parseTokenBalanceChanges tx.meta wallet ≠ []
          · rw [if_pos htok] at he
            rcases List.mem_map.mp he with ⟨c, -, rfl⟩
            cases hsw : (getTransactionSigner tx == wallet) <;>
              simp [hsw, hsend, hrecv]
          · rw [if_neg htok] at he
            by_cases hsol : parseSolBalanceChanges tx.meta wallet ≠ 0
                ∧ 1 / 10000000 < |parseSolBalanceChanges tx.meta wallet|
            · rw [if_pos hsol] at he
              rcases List.mem_singleton.mp he with rfl
              cases hsw : (getTransactionSigner tx == wallet) <;>
                simp [hsw, hsend, hrecv]
            · rw [if_neg hsol] at he
              cases he
      rw [hnil, List.map_nil]
  refine ⟨hmain, ?_, ?_⟩
  · intro e he
    have hmem : (e.mint, e.amount)
        ∈ ((parseToFilteredTransactions env tx sig uid (some wallet)
            now).filter (fun e => e.type == TxType.burn)).map
          (fun e => (e.mint, e.amount)) := List.mem_map_of_mem _ he
    rw [hmain] at hmem
    rcases List.mem_map.mp hmem with ⟨ma, -, heq⟩
    have hamt : e.amount
        = -((ma.2 : ℚ) / 10 ^ walletDecimalsFor tx.meta wallet ma.1) :=
      (congrArg Prod.snd heq).symm
    rw [hamt]
    have : (0 : ℚ) ≤ (ma.2 : ℚ) / 10 ^ walletDecimalsFor tx.meta wallet ma.1 := by
      positivity
    linarith
  · intro ma hma hpos
    have : (0 : ℚ) < (ma.2 : ℚ) / 10 ^ walletDecimalsFor tx.meta wallet ma.1 := by
      apply div_pos
      · exact_mod_cast hpos
      · positivity
    linarith

/-- C5 witness: the concrete burn of 5 raw units of MINTM, whose wallet
token balance change records 2 decimals, yields exactly one burn Event with
amount -5/100. -/
theorem c5_witness :
    ((parseToFilteredTransactions envNone c5BurnTx "SIGB" "U"
        (some "WALLETW") 0).filter (fun e => e.type == TxType.burn)).map
        (fun e => (e.mint, e.amount))
      = [("MINTM", -((5 : ℚ) / 10 ^ 2))]
    ∧ -((5 : ℚ) / 10 ^ 2) < 0 := by
  have htokval : parseTokenBalanceChanges c5BurnTx.meta "WALLETW"
      = [⟨"MINTM", -(1 / 20 : ℚ), 2⟩] := by
    norm_num [parseTokenBalanceChanges, c5BurnTx, List.filterMap_cons,
      List.filterMap_nil]
  have hguard : ¬(parseTokenBalanceChanges c5BurnTx.meta "WALLETW" = []
      ∧ parseSolBalanceChanges c5BurnTx.meta "WALLETW" = 0) := by
    intro habs
    rw [htokval] at habs
    cases habs.1
  have h := c5_burn_events_per_instruction envNone c5BurnTx "SIGB" "U"
    "WALLETW" 0 rfl hguard
  have hfm : (allInstructions c5BurnTx).filterMap burnData
      = [("MINTM", 5)] := rfl
  have hd : walletDecimalsFor c5BurnTx.meta "WALLETW" "MINTM" = 2 := by
    rw [walletDecimalsFor, htokval]
    rfl
  constructor
  · rw [h.1, hfm]
    simp [hd]
  · have := h.2.2 ("MINTM", 5)
      (by rw [hfm]; exact List.mem_singleton_self _) (by norm_num)
    rwa [hd] at this

/-- C5 (refuting evaluation): one concrete transaction with two parsed burn
instructions — a burn of raw amount 0 of MINTZ and a burn of raw amount 5 of
MINTD, whose mint decimals 2 the transaction records on another owner's
token balance entry — produces TWO burn Events, `[(burn, MINTZ, 0),
(burn, MINTD, -5)]`: not exactly one Event, the first amount 0 is not
strictly negative, and the second amount is -5 rather than -5/10^2, since
the code resolves decimals only from the wallet's own token balance change
(absent here). -/
theorem c5_counterexample_two_burns :
    (parseToFilteredTransactions envNone c5TwoBurnTx "SIGT" "U"
        (some "WALLETW") 0).map (fun e => (e.type, e.mint, e.amount))
      = [(TxType.burn, "MINTZ", 0), (TxType.burn, "MINTD", -5)]
    ∧ (parseToFilteredTransactions envNone c5TwoBurnTx "SIGT" "U"
        (some "WALLETW") 0).length = 2
    ∧ ¬((0 : ℚ) < 0)
    ∧ ((-5 : ℚ) ≠ -((5 : ℚ) / 10 ^ 2)) := by
  have herr : c5TwoBurnTx.meta.err = false := rfl
  have htok : parseTokenBalanceChanges c5TwoBurnTx.meta "WALLETW" = [] := rfl
  have h2 : parseSolBalanceChanges c5TwoBurnTx.meta "WALLETW" = -1 := by
    norm_num [parseSolBalanceChanges, solMethod2, c5TwoBurnTx]
  have hguard : ¬(parseTokenBalanceChanges c5TwoBurnTx.meta "WALLETW" = []
      ∧ parseSolBalanceChanges c5TwoBurnTx.meta "WALLETW" = 0) := by
    intro habs
    rw [h2] at habs
    exact absurd habs.2 (by norm_num)
  have hbc : detectBurnAndCloseOperations envNone c5TwoBurnTx "SIGT" "U"
      "WALLETW" c5TwoBurnTx.blockTime c5TwoBurnTx.slot 0
      = [mkBurnEvent envNone c5TwoBurnTx.meta "SIGT" "U" "WALLETW"
          c5TwoBurnTx.blockTime c5TwoBurnTx.slot 0 "MINTZ" 0,
         mkBurnEvent envNone c5TwoBurnTx.meta "SIGT" "U" "WALLETW"
          c5TwoBurnTx.blockTime c5TwoBurnTx.slot 0 "MINTD" 5] := rfl
  have hparse : parseToFilteredTransactions envNone c5TwoBurnTx "SIGT" "U"
      (some "WALLETW") 0
      = [mkBurnEvent envNone c5TwoBurnTx.meta "SIGT" "U" "WALLETW"
          c5TwoBurnTx.blockTime c5TwoBurnTx.slot 0 "MINTZ" 0,
         mkBurnEvent envNone c5TwoBurnTx.meta "SIGT" "U" "WALLETW"
          c5TwoBurnTx.blockTime c5TwoBurnTx.slot 0 "MINTD" 5] := by
    rw [parseToFilteredTransactions]
    simp only [herr, Bool.false_eq_true, if_false]
    rw [if_neg hguard, hbc]
    simp only [ne_eq, List.cons_ne_nil, not_false_eq_true, if_true]
  refine ⟨?_, by rw [hparse]; rfl, by norm_num, by norm_num⟩
  rw [hparse]
  simp only [List.map_cons, List.map_nil, mkBurnEvent, htok]
  norm_num

/-- Helper: the fallback native-change scan returns 0 or a value strictly
above the 0.000001 threshold it tests. -/
theorem solMethod2_eq_zero_or_big (pre post : List Int) :
    solMethod2 pre post = 0 ∨ 1 / 1000000 < |solMethod2 pre post| := by
  induction pre generalizing post with
  | nil => left; rfl
  | cons p ps ih =>
    cases post with
    | nil => left; rfl
    | cons q qs =>
      simp only [solMethod2]
      split
      · right; assumption
      · exact ih qs

/-- Helper: on pipeline-shaped meta (no `meta.transaction` object) the
extracted native change is 0 or strictly above 0.000001 in absolute value,
so the swap path's 0.0000001 spam filter never drops a nonzero native
delta. -/
theorem parseSolBalanceChanges_pipeline_dichotomy (meta : TxMeta) (w : String)
    (h : meta.metaTxAccountKeys = none) :
    parseSolBalanceChanges meta w = 0
      ∨ 1 / 1000000 < |parseSolBalanceChanges meta w| := by
  rw [parseSolBalanceChanges, h]
  exact solMethod2_eq_zero_or_big _ _

/-- C6: on a successful transaction with a detected venue and no burn/close
match, the classifier emits exactly one swap Event for the first
negative-delta (spent) candidate — carrying the venue, the spent mint, the
negated absolute delta, the wallet as source and the venue's primary program
id as destination — and no Event at all when no candidate delta is negative;
moreover on pipeline-shaped meta the candidate list's spam threshold never
hides a nonzero native delta. -/
theorem c6_swap_spent_leg (env : PriceEnv) (tx : ParsedTx)
    (sig uid wallet : String) (now : ℚ)
    (herr : tx.meta.err = false)
    (hdex : detectDEX tx ≠ "Unknown")
    (hbc : detectBurnAndCloseOperations env tx sig uid wallet tx.blockTime
      tx.slot now = []) :
    (∀ spent, (swapCandidates tx.meta wallet).find?
        (fun c => decide (c.amount < 0)) = some spent →
      (parseToFilteredTransactions env tx sig uid (some wallet) now).map
          (fun e => (e.type, e.dex, e.mint, e.amount, e.fromAddr, e.toAddr))
        = [(TxType.swap, detectDEX tx, spent.mint, -|spent.amount|, wallet,
            dexPrimaryProgram (detectDEX tx))])
    ∧ ((swapCandidates tx.meta wallet).find?
        (fun c => decide (c.amount < 0)) = none →
        parseToFilteredTransactions env tx sig uid (some wallet) now = [])
    ∧ (tx.meta.metaTxAccountKeys = none →
        parseSolBalanceChanges tx.meta wallet = 0
          ∨ 1 / 1000000 < |parseSolBalanceChanges tx.meta wallet|) := by
  refine ⟨?_, ?_, parseSolBalanceChanges_pipeline_dichotomy tx.meta wallet⟩
  · intro spent hs
    by_cases hguard : parseTokenBalanceChanges tx.meta wallet = []
        ∧ parseSolBalanceChanges tx.meta wallet = 0
    · have hcand : swapCandidates tx.meta wallet = [] := by
        simp [swapCandidates, hguard.1, hguard.2]
      rw [hcand] at hs
      cases hs
    · rw [parseToFilteredTransactions]
      simp only [herr, Bool.false_eq_true, if_false]
      rw [if_neg hguard, hbc]
      simp only [ne_eq, not_true_eq_false, if_false]
      rw [if_pos hdex, hs]
      simp
  · intro hs
    by_cases hguard : parseTokenBalanceChanges tx.meta wallet = []
        ∧ parseSolBalanceChanges tx.meta wallet = 0
    · simp [parseToFilteredTransactions, herr, hguard.1, hguard.2]
    · rw [parseToFilteredTransactions]
      simp only [herr, Bool.false_eq_true, if_false]
      rw [if_neg hguard, hbc]
      simp only [ne_eq, not_true_eq_false, if_false]
      rw [if_pos hdex, hs]

/-- C6 witness: the concrete Jupiter swap in which wallet W spends 2 MINTA
emits exactly one swap Event with the spent leg, routed to Jupiter's primary
program id. -/
theorem c6_witness :
    detectDEX c6Tx ≠ "Unknown"
    ∧ (parseToFilteredTransactions envNone c6Tx "SIG6" "U6" (some "W") 0).map
        (fun e => (e.type, e.dex, e.mint, e.amount, e.fromAddr, e.toAddr))
      = [(TxType.swap, "Jupiter", "MINTA", (-2 : ℚ), "W",
          "JUP4Fb2cqiRUcaTHdrPC8h2gNsA2ETXiPDD33WcGuJB")] := by
  have h := (c6_swap_spent_leg envNone c6Tx "SIG6" "U6" "W" 0 rfl (by decide)
      rfl).1 ⟨"MINTA", -2, 3, false⟩
    (by norm_num [swapCandidates, parseTokenBalanceChanges,
      parseSolBalanceChanges, solMethod2, c6Tx, List.find?])
  have hj : detectDEX c6Tx = "Jupiter" := by decide
  have hp : dexPrimaryProgram "Jupiter"
      = "JUP4Fb2cqiRUcaTHdrPC8h2gNsA2ETXiPDD33WcGuJB" := by decide
  rw [hj, hp] at h
  refine ⟨by decide, ?_⟩
  rw [h]
  norm_num

/-- Helper: every extracted token balance change is nonzero (zero changes
are dropped by both passes of the extractor). -/
theorem tokenChange_amount_ne_zero (meta : TxMeta) (w : String)
    {c : TokenChange} (h : c ∈ parseTokenBalanceChanges meta w) :
    c.amount ≠ 0 := by
  simp only [parseTokenBalanceChanges, List.mem_append, List.mem_filterMap] at h
  rcases h with ⟨t, -, ht⟩ | ⟨t, -, ht⟩
  · split at ht
    · cases ht
    · rename_i hcond
      cases ht
      simpa using hcond
  · split at ht
    · cases ht
    · split at ht
      · cases ht
      · rename_i hcond
        cases ht
        simpa using hcond

/-- C7: on a successful transaction with no detected venue and no burn/close
match, every emitted Event is typed by signer identity — the signer being
the first account key — with the amount forced strictly negative for a send
(wallet is the signer) and strictly positive for a receive. -/
theorem c7_transfer_direction_by_signer (env : PriceEnv) (tx : ParsedTx)
    (sig uid wallet : String) (now : ℚ)
    (herr : tx.meta.err = false)
    (hdex : detectDEX tx = "Unknown")
    (hbc : detectBurnAndCloseOperations env tx sig uid wallet tx.blockTime
      tx.slot now = []) :
    getTransactionSigner tx = tx.message.accountKeys.headD "Unknown"
    ∧ ∀ e ∈ parseToFilteredTransactions env tx sig uid (some wallet) now,
        if getTransactionSigner tx = wallet then
          e.type = TxType.send ∧ e.amount < 0
        else
          e.type = TxType.receive ∧ 0 < e.amount := by
  constructor
  · cases h : tx.message.accountKeys <;> simp [getTransactionSigner, h]
  · intro e he
    by_cases hguard : parseTokenBalanceChanges tx.meta wallet = []
        ∧ parseSolBalanceChanges tx.meta wallet = 0
    · simp [parseToFilteredTransactions, herr, hguard.1, hguard.2] at he
    · rw [parseToFilteredTransactions] at he
      simp only [herr, Bool.false_eq_true, if_false] at he
      rw [if_neg hguard, hbc] at he
      simp only [ne_eq, not_true_eq_false, if_false] at he
      rw [if_neg (not_not_intro hdex)] at he
      by_cases htok : parseTokenBalanceChanges tx.meta wallet = []
      · rw [if_neg (not_not_intro htok)] at he
        by_cases hsol : parseSolBalanceChanges tx.meta wallet ≠ 0
            ∧ 1 / 10000000 < |parseSolBalanceChanges tx.meta wallet|
        · rw [if_pos hsol] at he
          have habs : (0 : ℚ) < |parseSolBalanceChanges tx.meta wallet| := by
            have : (0 : ℚ) < 1 / 10000000 := by norm_num
            linarith [hsol.2]
          rcases List.mem_singleton.mp he with rfl
          by_cases hsw : getTransactionSigner tx = wallet
          · have hred : (if (getTransactionSigner tx == wallet) = true then
                TxType.send else TxType.receive) = TxType.send := by
              simp [hsw]
            rw [if_pos hsw, hred,
              if_neg (by decide : ¬(TxType.send = TxType.receive))]
            refine ⟨rfl, ?_⟩
            show -|parseSolBalanceChanges tx.meta wallet| < 0
            linarith
          · have hred : (if (getTransactionSigner tx == wallet) = true then
                TxType.send else TxType.receive) = TxType.receive := by
              simp only [beq_iff_eq, hsw, if_false]
            rw [if_neg hsw, hred, if_pos rfl]
            exact ⟨rfl, habs⟩
        · rw [if_neg hsol] at he
          cases he
      · rw [if_pos htok] at he
        rcases List.mem_map.mp he with ⟨c, hc, rfl⟩
        have hcz : c.amount ≠ 0 := tokenChange_amount_ne_zero tx.meta wallet hc
        have habs : (0 : ℚ) < |c.amount| := abs_pos.mpr hcz
        by_cases hsw : getTransactionSigner tx = wallet
        · have hred : (if (getTransactionSigner tx == wallet) = true then
              TxType.send else TxType.receive) = TxType.send := by
            simp [hsw]
          rw [if_pos hsw, hred,
            if_neg (by decide : ¬(TxType.send = TxType.receive))]
          refine ⟨rfl, ?_⟩
          show -|c.amount| < 0
          linarith
        · have hred : (if (getTransactionSigner tx == wallet) = true then
              TxType.send else TxType.receive) = TxType.receive := by
            simp only [beq_iff_eq, hsw, if_false]
          rw [if_neg hsw, hred, if_pos rfl]
          exact ⟨rfl, habs⟩

/-- Helper: full evaluation of the classifier on the concrete pure-SOL
transfer `c8SolTx` under the all-unavailable environment. -/
theorem parse_c8SolTx_eval :
    parseToFilteredTransactions envNone c8SolTx "SIG8" "U8" (some "W") 0
      = [solSendEvent] := by
  have herr : c8SolTx.meta.err = false := rfl
  have h1 : parseTokenBalanceChanges c8SolTx.meta "W" = [] := rfl
  have h2 : parseSolBalanceChanges c8SolTx.meta "W" = -1 := by
    norm_num [parseSolBalanceChanges, solMethod2, c8SolTx]
  have hguard : ¬(parseTokenBalanceChanges c8SolTx.meta "W" = []
      ∧ parseSolBalanceChanges c8SolTx.meta "W" = 0) := by
    intro habs
    rw [h2] at habs
    exact absurd habs.2 (by norm_num)
  have hbc : detectBurnAndCloseOperations envNone c8SolTx "SIG8" "U8" "W"
      c8SolTx.blockTime c8SolTx.slot 0 = [] := rfl
  have hdexu : detectDEX c8SolTx = "Unknown" := by decide
  have haddr : extractTransferAddresses c8SolTx "W" = ("W", "RECV") := by decide
  have hsig : getTransactionSigner c8SolTx = "W" := rfl
  rw [parseToFilteredTransactions]
  simp only [herr, Bool.false_eq_true, if_false]
  rw [if_neg hguard, hbc]
  simp only [ne_eq, not_true_eq_false, if_false]
  rw [if_neg (not_not_intro hdexu), if_neg (not_not_intro h1),
    if_pos (by rw [h2]; norm_num :
      parseSolBalanceChanges c8SolTx.meta "W" ≠ 0
        ∧ 1 / 10000000 < |parseSolBalanceChanges c8SolTx.meta "W"|)]
  simp only [solSendEvent, hsig, h2, haddr, List.cons.injEq, and_true,
    FilteredTx.mk.injEq]
  norm_num [getSolPriceUSD, envNone, createdAtMs, c8SolTx, SOL_MINT]
  refine ⟨by decide, ?_⟩
  rw [if_neg (by decide : ¬(TxType.send = TxType.receive))]
  norm_num

/-- C7 witness: on the concrete pure-SOL transfer signed by the wallet, the
emitted Event is a send with a strictly negative amount. -/
theorem c7_witness :
    solSendEvent.type = TxType.send ∧ solSendEvent.amount < 0 := by
  have h := (c7_transfer_direction_by_signer envNone c8SolTx "SIG8" "U8" "W" 0
      rfl (by decide) rfl).2 solSendEvent
    (by rw [parse_c8SolTx_eval]; exact List.mem_singleton_self _)
  have hsg : getTransactionSigner c8SolTx = "W" := by decide
  rwa [if_pos hsg] at h

/-- C8 (refuting evaluation): with the SOL price cache unavailable, the
resolved native price is the fixed fallback 100 — not 0 — so the concrete
1-SOL send is stored with USD value 100, refuting "price 0 when unavailable
for the native coin as well". -/
theorem c8_counterexample_sol_fallback_price :
    getSolPriceUSD envNone = 100
    ∧ (parseToFilteredTransactions envNone c8SolTx "SIG8" "U8" (some "W") 0).map
        (fun e => (e.mint, e.amount, e.value))
      = [(SOL_MINT, (-1 : ℚ), (100 : ℚ))]
    ∧ ((100 : ℚ) ≠ 0) := by
  refine ⟨rfl, ?_, by norm_num⟩
  rw [parse_c8SolTx_eval]
  rfl

/-- C8 (amended): token price resolution yields 0 whenever the lookup is
unconfigured, fails, or errors; the unavailable native price resolves to the
fixed fallback 100 instead of 0; and every emitted Event's USD value equals
the absolute amount times the resolved (native or token) price. -/
theorem c8_value_abs_amount_times_price :
    (∀ (env : PriceEnv) (mint : String), env.apiKey = none →
      getTokenPriceUSD env mint = 0)
    ∧ (∀ (env : PriceEnv) (mint : String), env.tokenResp mint = none →
        getTokenPriceUSD env mint = 0)
    ∧ (∀ (env : PriceEnv) (mint : String) (r : CoinveraResp),
        env.tokenResp mint = some r → r.error = true →
        getTokenPriceUSD env mint = 0)
    ∧ (∀ env : PriceEnv, env.solCache = none → getSolPriceUSD env = 100)
    ∧ (∀ (env : PriceEnv) (tx : ParsedTx) (sig uid : String)
        (uw : Option String) (now : ℚ) (e : FilteredTx),
        e ∈ parseToFilteredTransactions env tx sig uid uw now →
        e.value = |e.amount| * getSolPriceUSD env
          ∨ e.value = |e.amount| * getTokenPriceUSD env e.mint) := by
  refine ⟨?_, ?_, ?_, ?_, ?_⟩
  · intro env mint h
    simp [getTokenPriceUSD, h]
  · intro env mint h
    unfold getTokenPriceUSD
    cases env.apiKey <;> simp [h]
  · intro env mint r h herr
    unfold getTokenPriceUSD
    cases env.apiKey <;> simp [h, extractUsdPrice, herr]
  · intro env h
    simp [getSolPriceUSD, h]
  · intro env tx sig uid uw now e he
    cases uw with
    | none => simp [parseToFilteredTransactions] at he
    | some wallet =>
      rw [parseToFilteredTransactions] at he
      by_cases herr : tx.meta.err = true
      · simp [herr] at he
      · rw [if_neg herr] at he
        by_cases hguard : parseTokenBalanceChanges tx.meta wallet = []
            ∧ parseSolBalanceChanges tx.meta wallet = 0
        · rw [if_pos hguard] at he
          cases he
        · rw [if_neg hguard] at he
          by_cases hbc : detectBurnAndCloseOperations env tx sig uid wallet
              tx.blockTime tx.slot now ≠ []
          · rw [if_pos hbc] at he
            rw [detectBurnAndCloseOperations] at he
            rcases List.mem_flatMap.mp he with ⟨ix, -, hei⟩
            simp only [instrEvents, List.mem_append] at hei
            rcases hei with hei | hei
            · cases hbd : burnData ix with
              | none => rw [hbd] at hei; cases hei
              | some ma =>
                rw [hbd] at hei
                obtain ⟨m, a⟩ := ma
                rcases List.mem_singleton.mp hei with rfl
                right
                simp only [mkBurnEvent]
                rw [abs_neg, abs_abs]
            · by_cases hcm : closeMatches wallet ix = true
              · rw [if_pos hcm] at hei
                rcases List.mem_singleton.mp hei with rfl
                left
                simp only [mkCloseEvent]
                rw [abs_abs]
              · rw [if_neg hcm] at hei
                cases hei
          · rw [if_neg hbc] at he
            by_cases hdex : detectDEX tx ≠ "Unknown"
            · rw [if_pos hdex] at he
              cases hfind : (swapCandidates tx.meta wallet).find?
                  (fun c => decide (c.amount < 0)) with
              | none => rw [hfind] at he; cases he
              | some spent =>
                rw [hfind] at he
                rcases List.mem_singleton.mp he with rfl
                by_cases hsolA : spent.isSOL = true
                · left
                  simp [hsolA]
                · right
                  simp [hsolA]
            · rw [if_neg hdex] at he
              by_cases htok : parseTokenBalanceChanges tx.meta wallet ≠ []
              · rw [if_pos htok] at he
                rcases List.mem_map.mp he with ⟨c, -, rfl⟩
                right
                rfl
              · rw [if_neg htok] at he
                by_cases hsol : parseSolBalanceChanges tx.meta wallet ≠ 0
                    ∧ 1 / 10000000 < |parseSolBalanceChanges tx.meta wallet|
                · rw [if_pos hsol] at he
                  rcases List.mem_singleton.mp he with rfl
                  left
                  rfl
                · rw [if_neg hsol] at he
                  cases he

/-- C8 witness: under the all-unavailable environment the token price is 0,
the native price is the 100 fallback, and the concrete emitted Event's value
is the absolute amount times a resolved price. -/
theorem c8_witness :
    getTokenPriceUSD envNone "MINTM" = 0
    ∧ getSolPriceUSD envNone = 100
    ∧ (solSendEvent.value = |solSendEvent.amount| * getSolPriceUSD envNone
        ∨ solSendEvent.value
          = |solSendEvent.amount| * getTokenPriceUSD envNone solSendEvent.mint) :=
  ⟨c8_value_abs_amount_times_price.1 envNone "MINTM" rfl,
   c8_value_abs_amount_times_price.2.2.2.1 envNone rfl,
   c8_value_abs_amount_times_price.2.2.2.2 envNone c8SolTx "SIG8" "U8"
     (some "W") 0 solSendEvent
     (by rw [parse_c8SolTx_eval]; exact List.mem_singleton_self _)⟩

/-- Helper: every event the classifier produces carries the processed
signature. -/
theorem parse_signature_eq (env : PriceEnv) (tx : ParsedTx) (sig uid : String)
    (uw : Option String) (now : ℚ) {e : FilteredTx}
    (he : e ∈ parseToFilteredTransactions env tx sig uid uw now) :
    e.signature = sig := by
  cases uw with
  | none => simp [parseToFilteredTransactions] at he
  | some wallet =>
    rw [parseToFilteredTransactions] at he
    by_cases herr : tx.meta.err = true
    · simp [herr] at he
    · rw [if_neg herr] at he
      by_cases hguard : parseTokenBalanceChanges tx.meta wallet = []
          ∧ parseSolBalanceChanges tx.meta wallet = 0
      · rw [if_pos hguard] at he
        cases he
      · rw [if_neg hguard] at he
        by_cases hbc : detectBurnAndCloseOperations env tx sig uid wallet
            tx.blockTime tx.slot now ≠ []
        · rw [if_pos hbc] at he
          rw [detectBurnAndCloseOperations] at he
          rcases List.mem_flatMap.mp he with ⟨ix, -, hei⟩
          simp only [instrEvents, List.mem_append] at hei
          rcases hei with hei | hei
          · cases hbd : burnData ix with
            | none => rw [hbd] at hei; cases hei
            | some ma =>
              rw [hbd] at hei
              obtain ⟨m, a⟩ := ma
              rcases List.mem_singleton.mp hei with rfl
              rfl
          · by_cases hcm : closeMatches wallet ix = true
            · rw [if_pos hcm] at hei
              rcases List.mem_singleton.mp hei with rfl
              rfl
            · rw [if_neg hcm] at hei
              cases hei
        · rw [if_neg hbc] at he
          by_cases hdex : detectDEX tx ≠ "Unknown"
          · rw [if_pos hdex] at he
            cases hfind : (swapCandidates tx.meta wallet).find?
                (fun c => decide (c.amount < 0)) with
            | none => rw [hfind] at he; cases he
            | some spent =>
              rw [hfind] at he
              rcases List.mem_singleton.mp he with rfl
              rfl
          · rw [if_neg hdex] at he
            by_cases htok : parseTokenBalanceChanges tx.meta wallet ≠ []
            · rw [if_pos htok] at he
              rcases List.mem_map.mp he with ⟨c, -, rfl⟩
              rfl
            · rw [if_neg htok] at he
              by_cases hsol : parseSolBalanceChanges tx.meta wallet ≠ 0
                  ∧ 1 / 10000000 < |parseSolBalanceChanges tx.meta wallet|
              · rw [if_pos hsol] at he
                rcases List.mem_singleton.mp he with rfl
                rfl
              · rw [if_neg hsol] at he
                cases he

/-- Helper: once some stored event carries the signature, saving any further
events with that signature changes nothing (the unique index rejects them). -/
theorem foldl_save_of_any_true {sig : String} {evs : List FilteredTx}
    (hall : ∀ e ∈ evs, e.signature = sig) {store : List FilteredTx}
    (hany : store.any (fun x => x.signature == sig) = true) :
    evs.foldl saveFilteredTransaction store = store := by
  induction evs with
  | nil => rfl
  | cons a t ih =>
    have ha : a.signature = sig := hall a (List.mem_cons_self a t)
    have hsave : saveFilteredTransaction store a = store := by
      simp only [saveFilteredTransaction, ha, hany, if_true]
    rw [List.foldl_cons, hsave]
    exact ih (fun e hm => hall e (List.mem_cons_of_mem a hm))

/-- Helper: saving a nonempty batch of same-signature events into a store
with no event of that signature stores exactly one of them. -/
theorem foldl_save_fresh {sig : String} {evs : List FilteredTx}
    (hall : ∀ e ∈ evs, e.signature = sig) {store : List FilteredTx}
    (hnone : store.any (fun x => x.signature == sig) = false)
    (hne : evs ≠ []) :
    ((evs.foldl saveFilteredTransaction store).filter
        (fun x => x.signature == sig)).length = 1
    ∧ (evs.foldl saveFilteredTransaction store).any
        (fun x => x.signature == sig) = true := by
  cases evs with
  | nil => exact absurd rfl hne
  | cons a t =>
    have ha : a.signature = sig := hall a (List.mem_cons_self a t)
    have hnone' : store.any (fun x => x.signature == a.signature) = false := by
      rw [ha]; exact hnone
    have hsave : saveFilteredTransaction store a = store ++ [a] := by
      simp only [saveFilteredTransaction, hnone', Bool.false_eq_true, if_false]
    have hany2 : (store ++ [a]).any (fun x => x.signature == sig) = true := by
      simp [List.any_append, ha]
    have hfilter : store.filter (fun x => x.signature == sig) = [] := by
      rw [List.filter_eq_nil_iff]
      intro x hx
      have := List.any_eq_false.mp hnone x hx
      simpa using this
    rw [List.foldl_cons, hsave,
      foldl_save_of_any_true (fun e hm => hall e (List.mem_cons_of_mem a hm))
        hany2]
    refine ⟨?_, hany2⟩
    rw [List.filter_append, hfilter]
    simp [ha]

/-- C9: replaying a transaction with the same signature through the
per-signature processing step is idempotent: with no stored event for the
signature and a nonempty classification, the first run stores exactly one
event with that signature and the second run is a no-op. -/
theorem c9_replay_idempotent (env : PriceEnv) (tx : ParsedTx)
    (sig uid : String) (uw : Option String) (now : ℚ)
    (store : List FilteredTx)
    (hnew : store.any (fun x => x.signature == sig) = false)
    (hne : parseToFilteredTransactions env tx sig uid uw now ≠ []) :
    processSignatureOnce env tx sig uid uw now
        (processSignatureOnce env tx sig uid uw now store)
      = processSignatureOnce env tx sig uid uw now store
    ∧ ((processSignatureOnce env tx sig uid uw now store).filter
        (fun x => x.signature == sig)).length = 1 := by
  have hall : ∀ e ∈ parseToFilteredTransactions env tx sig uid uw now,
      e.signature = sig :=
    fun e he => parse_signature_eq env tx sig uid uw now he
  have h1 : processSignatureOnce env tx sig uid uw now store
      = (parseToFilteredTransactions env tx sig uid uw now).foldl
          saveFilteredTransaction store := by
    simp only [processSignatureOnce, hnew, Bool.false_eq_true, if_false]
  obtain ⟨hlen, hany⟩ := foldl_save_fresh hall hnew hne
  constructor
  · rw [h1, processSignatureOnce, if_pos hany]
  · rw [h1]
    exact hlen

/-- C9 witness: processing the concrete pure-SOL transfer twice from an empty
store stores exactly one event and the second run changes nothing. -/
theorem c9_witness :
    processSignatureOnce envNone c8SolTx "SIG8" "U8" (some "W") 0
        (processSignatureOnce envNone c8SolTx "SIG8" "U8" (some "W") 0 [])
      = processSignatureOnce envNone c8SolTx "SIG8" "U8" (some "W") 0 []
    ∧ ((processSignatureOnce envNone c8SolTx "SIG8" "U8" (some "W") 0 []).filter
        (fun x => x.signature == "SIG8")).length = 1 :=
  c9_replay_idempotent envNone c8SolTx "SIG8" "U8" (some "W") 0 [] rfl
    (by rw [parse_c8SolTx_eval]; simp)

end KeyloWallet
